import Mathlib

/-!
Shallow embedding of the Whetstone conversational-orchestration core
(src/core.py, src/database.py, src/symposium.py, src/scheduler_service.py).

Python strings are modelled as Lean `String`; the Python `str` methods used
by the source (`lower`, `split()`, `strip`, substring `in`, slicing) are
re-implemented below over the underlying character list so that every
definition evaluates by kernel reduction. The generation backend is external
(spec section 6): its token stream is passed to each operation as an explicit
`List String` argument. Timestamps produced by `datetime.utcnow()` are passed
in as explicit arguments. The spec's `privacyMode` is the flag the TUI calls
Privacy Mode: the negation of the store's `logging_enabled` toggle
(src/tui_app.py action_toggle_privacy, src/database.py).
-/

/-- Python `str.lower()` (per-character, as used on ASCII data). -/
def pyLower (s : String) : String := ⟨s.data.map Char.toLower⟩

/-- Splitting helper: cut a character list at every separator character. -/
def splitAux (p : Char → Bool) : List Char → List Char → List (List Char)
  | [], acc => [acc.reverse]
  | c :: cs, acc => if p c then acc.reverse :: splitAux p cs [] else splitAux p cs (c :: acc)

/-- Python `str.split()` with no arguments: split on whitespace runs and
drop empty pieces. -/
def pySplitWs (s : String) : List String :=
  ((splitAux (fun c => c.isWhitespace) s.data []).map (fun l => String.mk l)).filter
    (fun w => w ≠ "")

/-- Boolean list-prefix check. -/
def isPrefixL : List Char → List Char → Bool
  | [], _ => true
  | _ :: _, [] => false
  | a :: as, b :: bs => a == b && isPrefixL as bs

/-- Boolean list-infix check (needle occurs contiguously in haystack). -/
def isSubL (needle : List Char) : List Char → Bool
  | [] => needle.isEmpty
  | c :: cs => isPrefixL needle (c :: cs) || isSubL needle cs

/-- Python `needle in hay` substring test. -/
def pyIn (needle hay : String) : Bool := isSubL needle.data hay.data

/-- Python `str.strip()`: remove leading and trailing whitespace. -/
def pyStrip (s : String) : String :=
  ⟨((s.data.dropWhile Char.isWhitespace).reverse.dropWhile Char.isWhitespace).reverse⟩

/-- Python string slicing `s[:n]`: first `n` characters. -/
def pyTake (n : Nat) (s : String) : String := ⟨s.data.take n⟩

/-- Python `sep.join(pieces)`. -/
def joinWith (sep : String) : List String → String
  | [] => ""
  | [x] => x
  | x :: y :: xs => x ++ sep ++ joinWith sep (y :: xs)

/-- Order-preserving deduplication (first occurrence kept), modelling the
set of distinct query words built by `set(...)` in the source; only the
collection of distinct elements matters to the scoring code. -/
def dedupAux : List String → List String → List String
  | _, [] => []
  | seen, x :: xs => if x ∈ seen then dedupAux seen xs else x :: dedupAux (x :: seen) xs

/-- Distinct elements of a list, first occurrences, in order. -/
def pyDedup (l : List String) : List String := dedupAux [] l

/-- A knowledge-base document (src/core.py `_load_knowledge_base`). -/
structure Document where
  filename : String
  content : String
deriving DecidableEq, Repr

/-- A retrieval result (src/core.py `_simple_keyword_search` result dict). -/
structure ScoredDoc where
  score : Nat
  snippet : String
  source : String
deriving DecidableEq, Repr

/-- Model of `query_words = set(word.lower() for word in query.split() if len(word) > 3)`
(src/core.py line 281). -/
def query_words (query : String) : List String :=
  pyDedup (((pySplitWs query).filter (fun w => w.length > 3)).map pyLower)

/-- Model of `score = sum(1 for word in query_words if word in content_lower)`
(src/core.py line 287). -/
def doc_score (qw : List String) (content_lower : String) : Nat :=
  (qw.filter (fun w => pyIn w content_lower)).length

/-- Model of the snippet `' '.join(doc['content'].split()[:500])` (src/core.py line 289). -/
def snippetOf (content : String) : String :=
  joinWith (" ") ((pySplitWs content).take 500)

/-- Document filtering by library filter (src/core.py lines 273-278). -/
def filtered_docs (docs : List Document) (library_filter : List String) : List Document :=
  if library_filter.isEmpty then docs
  else docs.filter (fun d => library_filter.any (fun f => pyIn (pyLower f) (pyLower d.filename)))

/-- Scoring of one document: `if score > 0: scored_docs.append({...})`
(src/core.py lines 285-290). -/
def scored_one (qw : List String) (d : Document) : Option ScoredDoc :=
  let sc := doc_score qw (pyLower d.content)
  if 0 < sc then some ⟨sc, snippetOf d.content, d.filename⟩ else Option.none

/-- The `scored_docs` list accumulated in document order (src/core.py lines 284-290). -/
def scored_docs (qw : List String) (docs : List Document) : List ScoredDoc :=
  docs.filterMap (scored_one qw)

/-- Stable insertion for descending sort by a `Nat` key: the inserted element
(originally earlier than every element of the list) goes before the first
element whose key is not larger, so ties keep original order. -/
def insertDesc (key : α → Nat) (x : α) : List α → List α
  | [] => [x]
  | y :: ys => if key y ≤ key x then x :: y :: ys else y :: insertDesc key x ys

/-- Model of Python `list.sort(key=..., reverse=True)`: stable, descending.
Python's sort is stable and `reverse=True` keeps ties in original order;
this insertion sort produces exactly that (unique) arrangement. -/
def sortDesc (key : α → Nat) : List α → List α
  | [] => []
  | x :: xs => insertDesc key x (sortDesc key xs)

/-- Model of `PhilosopherCore._simple_keyword_search(query, library_filter)`
(src/core.py lines 270-293); `self.knowledge_base` and `self.rag_limit`
(initialised to 3 in `__init__`) are passed explicitly. -/
def simple_keyword_search (docs : List Document) (rag_limit : Nat)
    (query : String) (library_filter : List String) : List ScoredDoc :=
  let fd := filtered_docs docs library_filter
  let qw := query_words query
  if qw.isEmpty then []
  else ((sortDesc (fun r => r.score) (scored_docs qw fd)).take rag_limit)

/-- Index-annotated scoring: same pipeline as `scored_docs`, with each kept
result tagged by its original document position (for stating stability). -/
def scored_docs_idx (qw : List String) (docs : List Document) : List (Nat × ScoredDoc) :=
  (List.enumFrom 0 docs).filterMap (fun p => (scored_one qw p.2).map (fun r => (p.1, r)))

/-- Index-annotated variant of `simple_keyword_search`, identical pipeline. -/
def search_idx (docs : List Document) (rag_limit : Nat)
    (query : String) (library_filter : List String) : List (Nat × ScoredDoc) :=
  let fd := filtered_docs docs library_filter
  let qw := query_words query
  if qw.isEmpty then []
  else ((sortDesc (fun r => r.2.score) (scored_docs_idx qw fd)).take rag_limit)

/-- The `rag_limit` set by `PhilosopherCore.__init__` (src/core.py line 69). -/
def default_rag_limit : Nat := 3

/-- A persona record (src/core.py personas; `library_filter` is read with
`persona.get('library_filter', [])`, missing keys modelled by defaults). -/
structure Persona where
  name : String
  prompt : String
  description : String := ""
  library_filter : List String := []
deriving DecidableEq, Repr

/-- The `meta` payload passed to `log_interaction` by each call site. -/
inductive LogMeta where
  | empty : LogMeta
  | chatMeta (deep_mode : Bool) (context_count : Nat) : LogMeta
  | symposiumMeta (topic : String) (turn : Nat) : LogMeta
  | scheduledMeta (action_type : String) : LogMeta
deriving DecidableEq, Repr

/-- One row of the `interactions` table (src/database.py `_init_db`). -/
structure Interaction where
  timestamp : String
  persona_name : String
  user_query : String
  ai_response : String
  session_id : String
  meta : LogMeta
deriving DecidableEq, Repr

/-- The persistent store (src/database.py `DatabaseManager`): the logging
toggle and the append-only `interactions` table, in insertion (id) order. -/
structure DatabaseManager where
  logging_enabled : Bool
  interactions : List Interaction
deriving DecidableEq, Repr

/-- Model of `DatabaseManager.log_interaction` (src/database.py lines 97-117):
returns immediately when `_logging_enabled` is false, otherwise inserts
exactly one row. -/
def DatabaseManager.log_interaction (db : DatabaseManager) (timestamp persona_name
    user_query ai_response session_id : String) (meta : LogMeta) : DatabaseManager :=
  if !db.logging_enabled then db
  else { db with interactions :=
    db.interactions ++ [⟨timestamp, persona_name, user_query, ai_response, session_id, meta⟩] }

/-- Model of `DatabaseManager.get_history` (src/database.py lines 119-129):
`SELECT * FROM interactions ORDER BY id DESC LIMIT ?`. -/
def DatabaseManager.get_history (db : DatabaseManager) (limit : Nat) : List Interaction :=
  db.interactions.reverse.take limit

/-- The session (src/core.py `PhilosopherCore`): store handle, personas
mapping (insertion-ordered, unique keys), knowledge base, mode flags, and
backend availability. -/
structure PhilosopherCore where
  db : DatabaseManager
  personas : List (String × Persona)
  knowledge_base : List Document
  current_persona : Option Persona
  session_id : String
  rag_limit : Nat
  deep_mode : Bool
  clarity_mode : Bool
  journey_memory_enabled : Bool
  ultra_privacy_mode : Bool
  backend_ready : Bool
deriving DecidableEq, Repr

/-- Model of `PhilosopherCore.get_valid_personas` (src/core.py lines 244-250). -/
def PhilosopherCore.get_valid_personas (core : PhilosopherCore) : List Persona :=
  core.personas.filterMap (fun kp =>
    if pyLower kp.1 ∉ (["example", "test", "placeholder"] : List String) ∧ pyStrip kp.2.name ≠ ""
    then some kp.2 else Option.none)

/-- The `length_instruction` chosen in `_construct_prompt` when verbose
(src/core.py line 301). -/
def thorough_instruction : String :=
  "\n\nProvide a thoughtful, thorough response. Take your time to explore the question deeply."

/-- The `length_instruction` chosen in `_construct_prompt` when not verbose
(src/core.py line 303). -/
def concise_instruction : String :=
  "\n\nIMPORTANT: Keep your response concise - 2-3 sentences maximum. Be direct and insightful, not exhaustive."

/-- The `clarity_instruction` when clarity mode is on (src/core.py line 307). -/
def clarity_mode_instruction : String :=
  "\n\nCLARITY MODE: Speak in plain, accessible language. Avoid technical jargon and specialized terminology. When you must use a complex term, briefly explain it in parentheses. Your goal is to make deep ideas understandable to anyone, not to demonstrate erudition."

/-- Selection of the length instruction by `verbose`, where the source sets
verbose to deep mode or the WHETSTONE_VERBOSE environment variable being 1;
`env_verbose` below models that environment disjunct (src/core.py line 299). -/
def length_instruction (verbose : Bool) : String :=
  if verbose then thorough_instruction else concise_instruction

/-- Preamble overlay: the custom preamble, two newlines, then the persona
prompt, when the custom preamble setting is non-empty; otherwise the persona
prompt alone (src/core.py lines 312-314). -/
def persona_block (persona : Persona) (custom_preamble : String) : String :=
  if custom_preamble ≠ "" then custom_preamble ++ "\n\n" ++ persona.prompt else persona.prompt

/-- One reference block of the context string (src/core.py lines 317-320). -/
def reference_block (item : ScoredDoc) : String :=
  "Reference from \x27" ++ item.source ++ "\x27:\n" ++ item.snippet ++ "..."

/-- Model of `context_str` (src/core.py lines 317-320). -/
def context_str (snips : List ScoredDoc) : String :=
  joinWith ("\n\n---\n\n") (snips.map reference_block)

/-- The successive pieces (interpolated values and literal template text, in
order) whose concatenation is the prompt built by
`PhilosopherCore._construct_prompt` (src/core.py lines 295-337). -/
def construct_prompt_parts (persona : Persona) (custom_preamble : String)
    (deep_mode clarity_mode env_verbose : Bool)
    (context_snippets : List ScoredDoc) (query : String) : List String :=
  let li := length_instruction (deep_mode || env_verbose)
  let ci := if clarity_mode then clarity_mode_instruction else ""
  let pp := persona_block persona custom_preamble
  if context_snippets.isEmpty then
    [pp, "\n\nCarefully consider the user\x27s question and respond in character.",
      li, ci, "\nUser\x27s Question: ", query, "\nAI Philosopher:"]
  else
    [pp,
      "\n\nHere is some context from your library that may be relevant to the user\x27s query:\n---\n",
      context_str context_snippets,
      "\n---\n\nNow, carefully consider the user\x27s question and respond in character, grounding your response in the provided texts.",
      li, ci, "\nUser\x27s Question: ", query, "\nAI Philosopher:"]

/-- Model of `PhilosopherCore._construct_prompt` (src/core.py lines 295-337): the
f-string, written as the concatenation of its pieces. -/
def construct_prompt (persona : Persona) (custom_preamble : String)
    (deep_mode clarity_mode env_verbose : Bool)
    (context_snippets : List ScoredDoc) (query : String) : String :=
  let li := length_instruction (deep_mode || env_verbose)
  let ci := if clarity_mode then clarity_mode_instruction else ""
  let pp := persona_block persona custom_preamble
  if context_snippets.isEmpty then
    pp ++ "\n\nCarefully consider the user\x27s question and respond in character." ++
      li ++ ci ++ "\nUser\x27s Question: " ++ query ++ "\nAI Philosopher:"
  else
    pp ++
      "\n\nHere is some context from your library that may be relevant to the user\x27s query:\n---\n" ++
      context_str context_snippets ++
      "\n---\n\nNow, carefully consider the user\x27s question and respond in character, grounding your response in the provided texts." ++
      li ++ ci ++ "\nUser\x27s Question: " ++ query ++ "\nAI Philosopher:"

/-- The effective `PhilosopherCore.chat` (src/core.py lines 339-368; a second
definition of `chat` that shadows the one at line 117). The backend stream is
the `gen_tokens` argument; the function returns the updated session and the
yielded fragments. Step 4 calls `log_interaction` unconditionally; the
persistence gate is `logging_enabled` inside the store. -/
def PhilosopherCore.chat (core : PhilosopherCore) (user_query : String)
    (gen_tokens : List String) (timestamp : String) : PhilosopherCore × List String :=
  match core.current_persona with
  | Option.none => (core, ["Error: System not ready (No persona or backend)."])
  | some persona =>
    if !core.backend_ready then (core, ["Error: System not ready (No persona or backend)."])
    else
      let context := simple_keyword_search core.knowledge_base core.rag_limit
        user_query persona.library_filter
      let full_response := String.join gen_tokens
      let db := core.db.log_interaction timestamp persona.name user_query full_response
        core.session_id (LogMeta.chatMeta core.deep_mode context.length)
      ({ core with db := db }, gen_tokens)

/-- One debate history entry (src/symposium.py turn dicts). Generated turns
carry no `type`/`target` keys, modelled as `Option.none`; interjections have
`type = some ("interjection")` and an optional target. -/
structure Turn where
  speaker : String
  text : String
  turn : Nat
  type : Option String
  target : Option String
deriving DecidableEq, Repr

/-- The debate state (src/symposium.py `Symposium`). The owning core's store
and session id are passed to `next_turn` explicitly. -/
structure Symposium where
  persona_a : Persona
  persona_b : Persona
  topic : String
  history : List Turn
  turn_count : Nat
  is_active : Bool
deriving DecidableEq, Repr

/-- Model of `Symposium.interject` (src/symposium.py lines 22-36): appends the
moderator entry and increments `turn_count`; no `is_active` check appears in
the source. -/
def Symposium.interject (s : Symposium) (message : String) (target : Option String) :
    Symposium × Turn :=
  let turn_data : Turn := ⟨"Moderator", message, s.turn_count + 1, some ("interjection"), target⟩
  ({ s with history := s.history ++ [turn_data], turn_count := s.turn_count + 1 }, turn_data)

/-- The backward scan of `next_turn` (src/symposium.py lines 95-103), acting
on the reversed history: first entry whose `type` is not an interjection
gives 0 if persona A spoke it, else 1; no such entry gives -1. -/
def last_philosopher_rev (a_name : String) : List Turn → Int
  | [] => -1
  | t :: rest =>
    if t.type ≠ some ("interjection") then (if t.speaker = a_name then 0 else 1)
    else last_philosopher_rev a_name rest

/-- Speaker resolution of `Symposium.next_turn` (src/symposium.py lines
78-116): returns (speaker, opponent). -/
def resolve_speaker (s : Symposium) : Persona × Persona :=
  let last_turn := s.history.getLast?
  let forced : Option Persona :=
    match last_turn with
    | some t =>
      if t.type = some ("interjection") then
        if t.target = some ("a") then some s.persona_a
        else if t.target = some ("b") then some s.persona_b
        else Option.none
      else Option.none
    | Option.none => Option.none
  match forced with
  | some sp => (sp, if sp = s.persona_a then s.persona_b else s.persona_a)
  | Option.none =>
    let f := last_philosopher_rev s.persona_a.name s.history.reverse
    if f = -1 then (s.persona_a, s.persona_b)
    else if f = 0 then (s.persona_b, s.persona_a)
    else (s.persona_a, s.persona_b)

/-- Model of `Symposium.next_turn` (src/symposium.py lines 73-153): resolves the
speaker, appends the generated turn, logs when the store's logging toggle is
on, increments `turn_count`. The owning core's `db` and `session_id` are
explicit; the backend stream is `gen_tokens`. No `is_active` check appears in
the source. -/
def Symposium.next_turn (s : Symposium) (db : DatabaseManager) (session_id : String)
    (gen_tokens : List String) (timestamp : String) : Symposium × DatabaseManager × Turn :=
  let last_turn := s.history.getLast?
  let sp := resolve_speaker s
  let full_response := String.join gen_tokens
  let turn_data : Turn := ⟨sp.1.name, full_response, s.turn_count + 1, Option.none, Option.none⟩
  let db' :=
    if db.logging_enabled then
      let context_text :=
        match last_turn with
        | some t => pyTake 50 t.text
        | Option.none => "Opening"
      db.log_interaction timestamp sp.1.name
        ("[Symposium vs " ++ sp.2.name ++ "] Context: " ++ context_text ++ "...")
        full_response session_id (LogMeta.symposiumMeta s.topic s.turn_count)
    else db
  ({ s with history := s.history ++ [turn_data], turn_count := s.turn_count + 1 }, db', turn_data)

/-- The most recent generated (non-interjection) history entry, if any:
the entry the backward scan of `next_turn` stops at. -/
def last_generated (hist : List Turn) : Option Turn :=
  hist.reverse.find? (fun t => !(t.type == some ("interjection")))

/-- Spec-side comparator for the debate claims (spec section 4.4): the
speaker required by normal alternation, scanning history backward past
interjections; written from the spec's words, to be compared with
`resolve_speaker`. -/
def spec_alternation_speaker (s : Symposium) : Persona :=
  match last_generated s.history with
  | Option.none => s.persona_a
  | some g => if g.speaker = s.persona_a.name then s.persona_b else s.persona_a

/-- Whether the most recent history entry is an interjection targeting
participant a or b (the override condition of src/symposium.py lines 83-88). -/
def last_is_targeted (s : Symposium) : Bool :=
  match s.history.getLast? with
  | some t => t.type == some ("interjection") && (t.target == some ("a") || t.target == some ("b"))
  | Option.none => false

/-- A scheduler task (src/scheduler_service.py `ScheduledTask`). -/
structure ScheduledTask where
  id : String
  name : String
  interval_minutes : Nat
  action_type : String
  persona_name : String
  topic : String
  enabled : Bool
deriving DecidableEq, Repr

/-- Persona resolution of `SocraticScheduler.execute_task` step 1
(src/scheduler_service.py lines 102-110); `random.choice` over the valid
personas is modelled by an arbitrary index `k` reduced modulo the length. -/
def pick_persona (core : PhilosopherCore) (task : ScheduledTask) (k : Nat) : Option Persona :=
  if pyLower task.persona_name = "random" then
    let valid := core.get_valid_personas
    if valid.isEmpty then Option.none
    else valid.get? (k % valid.length)
  else
    core.get_valid_personas.find? (fun p => p.name == task.persona_name)

/-- Model of `SocraticScheduler.execute_task` (src/scheduler_service.py lines 96-142):
resolve a persona (no-op when none), join the non-streaming generation output,
deliver via callback (external, no core state effect), and log the exchange
when the store's logging toggle is on. -/
def execute_task (core : PhilosopherCore) (task : ScheduledTask) (k : Nat)
    (gen_out : List String) (timestamp : String) : PhilosopherCore :=
  match pick_persona core task k with
  | Option.none => core
  | some persona =>
    let response_text := pyStrip (String.join gen_out)
    if core.db.logging_enabled then
      let db2 := core.db.log_interaction timestamp persona.name
        ("[SCHEDULED: " ++ task.name ++ "]") response_text ("scheduler")
        (LogMeta.scheduledMeta task.action_type)
      { core with db := db2 }
    else core


/-- Fixture: a persona used by concrete witnesses. -/
def samplePersonaA : Persona := ⟨"Socrates", "You are Socrates.", "", []⟩

/-- Fixture: a second persona used by concrete witnesses. -/
def samplePersonaB : Persona := ⟨"Nietzsche", "You are Nietzsche.", "", []⟩

/-- Fixture: a placeholder persona stored under an excluded key. -/
def samplePersonaEx : Persona := ⟨"Demo", "You are a demo.", "", []⟩

/-- Fixture: a store with logging disabled and no rows. -/
def sampleDbOff : DatabaseManager := ⟨false, []⟩

/-- Fixture: a store with logging enabled and no rows. -/
def sampleDbOn : DatabaseManager := ⟨true, []⟩

/-- Fixture: a session with logging enabled, one valid persona selected. -/
def sampleCoreOn : PhilosopherCore :=
  ⟨sampleDbOn, [("socrates", samplePersonaA)], [], some samplePersonaA,
    "sid", 3, false, false, true, false, true⟩

/-- Fixture: a session whose personas mapping mixes an excluded key with a
valid one. -/
def sampleCoreMixed : PhilosopherCore :=
  ⟨sampleDbOn, [("Example", samplePersonaEx), ("socrates", samplePersonaA)], [],
    some samplePersonaA, "sid", 3, false, false, true, false, true⟩

/-- Fixture: an ended (inactive) debate session. -/
def sampleSymInactive : Symposium := ⟨samplePersonaA, samplePersonaB, "truth", [], 0, false⟩

/-- Fixture: a generated opening turn by participant A. -/
def sampleTurnA : Turn := ⟨"Socrates", "opening", 1, Option.none, Option.none⟩

/-- Fixture: a debate in which A has made the opening statement. -/
def sampleSymAfterA : Symposium := ⟨samplePersonaA, samplePersonaB, "truth", [sampleTurnA], 1, true⟩

/-- Fixture: a moderator interjection targeting participant b. -/
def sampleInterjB : Turn := ⟨"Moderator", "respond", 2, some ("interjection"), some ("b")⟩

/-- Fixture: a debate whose most recent entry is an interjection targeting b. -/
def sampleSymTargeted : Symposium :=
  ⟨samplePersonaA, samplePersonaB, "truth", [sampleTurnA, sampleInterjB], 2, true⟩

/-- Fixture: a document containing the four-letter word okay. -/
def sampleDocOkay : Document := ⟨"doc.txt", "this is okay content"⟩

/-- Fixture: a scheduler task with the random persona selector. -/
def sampleTask : ScheduledTask := ⟨"id1", "Poke", 1, "toast", "Random", "", true⟩

/-- Helper: unfolding of `chat` on the main path (persona present, backend
ready): the updated store is one `log_interaction` call. -/
theorem chat_db_eq (core : PhilosopherCore) (p : Persona) (user_query : String)
    (gen_tokens : List String) (timestamp : String)
    (hp : core.current_persona = some p) (hb : core.backend_ready = true) :
    (core.chat user_query gen_tokens timestamp).1.db =
      core.db.log_interaction timestamp p.name user_query (String.join gen_tokens)
        core.session_id
        (LogMeta.chatMeta core.deep_mode
          (simple_keyword_search core.knowledge_base core.rag_limit user_query
            p.library_filter).length) := by
  simp [PhilosopherCore.chat, hp, hb]

/-- C1: a `chat` call on a ready session persists exactly one interaction
record through the store's `log_interaction` if and only if privacy mode is
off (privacy mode being the negation of the store's `logging_enabled`
toggle, the flag the TUI presents as Privacy Mode); in particular with
privacy mode on the store, hence `get_history`, is unchanged. -/
theorem chat_persists_one_record_iff_logging (core : PhilosopherCore) (p : Persona)
    (user_query : String) (gen_tokens : List String) (timestamp : String)
    (hp : core.current_persona = some p) (hb : core.backend_ready = true) :
    ((core.chat user_query gen_tokens timestamp).1.db.interactions.length =
        core.db.interactions.length + 1 ↔ core.db.logging_enabled = true)
    ∧ (core.db.logging_enabled = true →
        (core.chat user_query gen_tokens timestamp).1.db.interactions =
          core.db.interactions ++
            [⟨timestamp, p.name, user_query, String.join gen_tokens, core.session_id,
              LogMeta.chatMeta core.deep_mode
                (simple_keyword_search core.knowledge_base core.rag_limit user_query
                  p.library_filter).length⟩])
    ∧ (core.db.logging_enabled = false →
        (core.chat user_query gen_tokens timestamp).1.db = core.db)
    ∧ (∀ limit, core.db.logging_enabled = false →
        (core.chat user_query gen_tokens timestamp).1.db.get_history limit =
          core.db.get_history limit) := by
  rw [chat_db_eq core p user_query gen_tokens timestamp hp hb]
  by_cases h : core.db.logging_enabled
  · refine ⟨?_, ?_, ?_, ?_⟩
    · simp [DatabaseManager.log_interaction, h]
    · intro _; simp [DatabaseManager.log_interaction, h]
    · intro hcontra; rw [h] at hcontra; exact absurd hcontra (by simp)
    · intro _ hcontra; rw [hcontra] at h; exact absurd h (by simp)
  · have h0 : core.db.logging_enabled = false := by
      cases hv : core.db.logging_enabled
      · rfl
      · exact absurd hv h
    refine ⟨?_, ?_, ?_, ?_⟩
    · simp [DatabaseManager.log_interaction, h0]
    · intro hcontra; rw [hcontra] at h0; exact absurd h0 (by simp)
    · intro _; simp [DatabaseManager.log_interaction, h0]
    · intro _ _; simp [DatabaseManager.log_interaction, h0]

/-- Witness for C1 at a concrete ready session with logging enabled. -/
theorem chat_persists_one_record_iff_logging_witness :
    (sampleCoreOn.chat ("why") ["a", "b"] ("t1")).1.db.interactions.length =
      sampleCoreOn.db.interactions.length + 1 :=
  ((chat_persists_one_record_iff_logging sampleCoreOn samplePersonaA "why" ["a", "b"]
    "t1" rfl rfl).1).mpr rfl

/-- C2 (code evaluated at the failing input): on a debate whose `active`
flag is false, `interject` and `next_turn` both succeed and append to the
history; no InvalidState failure occurs anywhere in `Symposium`. -/
theorem symposium_inactive_accepts_calls :
    sampleSymInactive.is_active = false
    ∧ (sampleSymInactive.interject ("point") Option.none).1.history.length =
        sampleSymInactive.history.length + 1
    ∧ (sampleSymInactive.next_turn sampleDbOff ("sid") ["x"] ("t")).1.history.length =
        sampleSymInactive.history.length + 1 :=
  ⟨rfl, rfl, rfl⟩

/-- C5: a scheduler task execution that completes a generation (a persona
was resolved) persists the exchange, with the synthetic scheduler-originated
query marker, if and only if privacy mode is off (the store's
`logging_enabled` toggle is on). -/
theorem scheduler_persists_iff_logging (core : PhilosopherCore) (task : ScheduledTask)
    (k : Nat) (gen_out : List String) (timestamp : String) (p : Persona)
    (hp : pick_persona core task k = some p) :
    ((execute_task core task k gen_out timestamp).db.interactions.length =
        core.db.interactions.length + 1 ↔ core.db.logging_enabled = true)
    ∧ (core.db.logging_enabled = true →
        (execute_task core task k gen_out timestamp).db.interactions =
          core.db.interactions ++
            [⟨timestamp, p.name, "[SCHEDULED: " ++ task.name ++ "]",
              pyStrip (String.join gen_out), "scheduler",
              LogMeta.scheduledMeta task.action_type⟩])
    ∧ (core.db.logging_enabled = false →
        execute_task core task k gen_out timestamp = core) := by
  by_cases h : core.db.logging_enabled
  · refine ⟨?_, ?_, ?_⟩
    · simp [execute_task, hp, h, DatabaseManager.log_interaction]
    · intro _; simp [execute_task, hp, h, DatabaseManager.log_interaction]
    · intro hcontra; rw [hcontra] at h; exact absurd h (by simp)
  · have h0 : core.db.logging_enabled = false := by
      cases hv : core.db.logging_enabled
      · rfl
      · exact absurd hv h
    refine ⟨?_, ?_, ?_⟩
    · simp [execute_task, hp, h0]
    · intro hcontra; rw [hcontra] at h0; exact absurd h0 (by simp)
    · intro _; simp [execute_task, hp, h0]

/-- Witness for C5 at a concrete session and random-selector task. -/
theorem scheduler_persists_iff_logging_witness :
    (execute_task sampleCoreOn sampleTask 0 ["x"] ("t2")).db.interactions.length =
      sampleCoreOn.db.interactions.length + 1 :=
  ((scheduler_persists_iff_logging sampleCoreOn sampleTask 0 ["x"] "t2" samplePersonaA
    (by decide)).1).mpr rfl

/-- C9: the store's `log_interaction` is a no-op whenever the logging toggle
is off: the store, and in particular the interactions history, is unchanged. -/
theorem log_interaction_disabled_noop (db : DatabaseManager)
    (ts pn uq ar sid : String) (m : LogMeta) (h : db.logging_enabled = false) :
    db.log_interaction ts pn uq ar sid m = db
    ∧ (db.log_interaction ts pn uq ar sid m).interactions = db.interactions := by
  constructor
  · simp [DatabaseManager.log_interaction, h]
  · simp [DatabaseManager.log_interaction, h]

/-- Witness for C9 at a concrete disabled store. -/
theorem log_interaction_disabled_noop_witness :
    sampleDbOff.log_interaction ("t") ("p") ("q") ("r") ("s") LogMeta.empty = sampleDbOff :=
  (log_interaction_disabled_noop sampleDbOff "t" "p" "q" "r" "s" LogMeta.empty rfl).1

/-- C10: `get_valid_personas` keeps exactly the personas whose key is not
case-insensitively example/test/placeholder and whose name is non-empty
after stripping; scheduler persona resolution draws only from that set
(random via an arbitrary index, exact name otherwise) and resolves nothing
when the set yields no persona. -/
theorem valid_personas_filter_and_resolution (core : PhilosopherCore) :
    (∀ p : Persona, p ∈ core.get_valid_personas ↔
      ∃ k, (k, p) ∈ core.personas ∧
        pyLower k ∉ (["example", "test", "placeholder"] : List String) ∧
        pyStrip p.name ≠ "")
    ∧ (∀ (task : ScheduledTask) (k : Nat) (p : Persona),
        pick_persona core task k = some p → p ∈ core.get_valid_personas)
    ∧ (∀ (task : ScheduledTask) (k : Nat), pyLower task.persona_name = "random" →
        core.get_valid_personas = [] → pick_persona core task k = Option.none)
    ∧ (∀ (task : ScheduledTask) (k : Nat), pyLower task.persona_name ≠ "random" →
        (∀ p ∈ core.get_valid_personas, p.name ≠ task.persona_name) →
        pick_persona core task k = Option.none) := by
  refine ⟨?_, ?_, ?_, ?_⟩
  · intro p
    constructor
    · intro hp
      rcases List.mem_filterMap.mp hp with ⟨kp, hkpl, hkp⟩
      by_cases hc : pyLower kp.1 ∉ (["example", "test", "placeholder"] : List String) ∧
          pyStrip kp.2.name ≠ ""
      · rw [if_pos hc] at hkp
        cases hkp
        exact ⟨kp.1, hkpl, hc.1, hc.2⟩
      · rw [if_neg hc] at hkp
        exact absurd hkp (by simp)
    · rintro ⟨k, hk, h1, h2⟩
      exact List.mem_filterMap.mpr ⟨(k, p), hk, by rw [if_pos ⟨h1, h2⟩]⟩
  · intro task k p hp
    unfold pick_persona at hp
    by_cases hr : pyLower task.persona_name = "random"
    · rw [if_pos hr] at hp
      by_cases he : core.get_valid_personas.isEmpty
      · rw [if_pos he] at hp; exact absurd hp (by simp)
      · rw [if_neg he] at hp
        exact List.get?_mem hp
    · rw [if_neg hr] at hp
      exact List.mem_of_find?_eq_some hp
  · intro task k hr he
    unfold pick_persona
    rw [if_pos hr, he]
    rfl
  · intro task k hr hnone
    unfold pick_persona
    rw [if_neg hr]
    rw [List.find?_eq_none]
    intro p hp
    simp only [beq_iff_eq]
    exact hnone p hp

/-- Witness for C10: the valid persona of a mixed mapping is kept. -/
theorem valid_personas_filter_and_resolution_witness :
    samplePersonaA ∈ sampleCoreMixed.get_valid_personas :=
  ((valid_personas_filter_and_resolution sampleCoreMixed).1 samplePersonaA).mpr
    ⟨"socrates", by decide, by decide, by decide⟩

/-- Counterexample to C6 as stated: the query okay contains no word of
length greater than 4, yet `search` returns a non-empty result, because the
source keeps words of length greater than 3. -/
theorem search_four_letter_query_counterexample :
    (∀ w ∈ pySplitWs ("okay"), w.length ≤ 4)
    ∧ simple_keyword_search [sampleDocOkay] 3 ("okay") [] ≠ [] := by
  constructor
  · decide
  · decide

/-- C6 amended: for every query containing no word of length greater
than 3, `search` returns an empty list, for every document set, library
filter and limit. -/
theorem search_no_long_words_empty (docs : List Document) (rag_limit : Nat)
    (query : String) (library_filter : List String)
    (h : ∀ w ∈ pySplitWs query, w.length ≤ 3) :
    simple_keyword_search docs rag_limit query library_filter = [] := by
  have hfil : (pySplitWs query).filter (fun w => w.length > 3) = [] := by
    rw [List.filter_eq_nil_iff]
    intro a ha
    have := h a ha
    simp only [decide_eq_true_eq]
    omega
  have hq : query_words query = [] := by
    unfold query_words
    rw [hfil]
    rfl
  simp [simple_keyword_search, hq]

/-- Witness for the amended C6 at the spec's example query. -/
theorem search_no_long_words_empty_witness :
    (∀ w ∈ pySplitWs ("hi ok"), w.length ≤ 3)
    ∧ simple_keyword_search [sampleDocOkay] 3 ("hi ok") [] = [] :=
  ⟨by decide, search_no_long_words_empty [sampleDocOkay] 3 "hi ok" [] (by decide)⟩

/-- Helper: when no non-interjection entry exists, the backward scan
returns -1. -/
theorem last_philosopher_rev_of_find_none (a : String) (l : List Turn)
    (h : l.find? (fun t => !(t.type == some ("interjection"))) = Option.none) :
    last_philosopher_rev a l = -1 := by
  induction l with
  | nil => rfl
  | cons t rest ih =>
    by_cases hc : t.type = some ("interjection")
    · rw [List.find?_cons_of_neg _ (by simp [hc])] at h
      simp only [last_philosopher_rev]
      rw [if_neg (not_not_intro hc)]
      exact ih h
    · rw [List.find?_cons_of_pos _ (by simp [hc])] at h
      exact absurd h (by simp)

/-- Helper: when the first non-interjection entry of the scanned list is
`g`, the backward scan returns 0 when A spoke it and 1 otherwise. -/
theorem last_philosopher_rev_of_find_some (a : String) (l : List Turn) (g : Turn)
    (h : l.find? (fun t => !(t.type == some ("interjection"))) = some g) :
    last_philosopher_rev a l = if g.speaker = a then 0 else 1 := by
  induction l with
  | nil => exact absurd h (by simp)
  | cons t rest ih =>
    by_cases hc : t.type = some ("interjection")
    · rw [List.find?_cons_of_neg _ (by simp [hc])] at h
      simp only [last_philosopher_rev]
      rw [if_neg (not_not_intro hc)]
      exact ih h
    · rw [List.find?_cons_of_pos _ (by simp [hc])] at h
      cases h
      simp only [last_philosopher_rev]
      rw [if_pos hc]

/-- Helper: when the most recent entry is not a targeted interjection, the
resolution falls through to the backward scan. -/
theorem resolve_speaker_not_forced (s : Symposium) (hlt : last_is_targeted s = false) :
    resolve_speaker s =
      (if last_philosopher_rev s.persona_a.name s.history.reverse = -1 then
        (s.persona_a, s.persona_b)
      else if last_philosopher_rev s.persona_a.name s.history.reverse = 0 then
        (s.persona_b, s.persona_a)
      else (s.persona_a, s.persona_b)) := by
  unfold last_is_targeted at hlt
  cases hl : s.history.getLast? with
  | none =>
    simp only [resolve_speaker, hl]
  | some t =>
    rw [hl] at hlt
    by_cases hc : t.type = some ("interjection")
    · by_cases ha : t.target = some ("a")
      · simp [hc, ha] at hlt
      · by_cases hb : t.target = some ("b")
        · simp [hc, hb] at hlt
        · simp only [resolve_speaker, hl]
          rw [if_pos hc, if_neg ha, if_neg hb]
    · simp only [resolve_speaker, hl]
      rw [if_neg hc]

/-- C3: `next_turn` resolves the speaker by precedence: a most-recent
targeted interjection pins that participant; otherwise the participant
opposite the most recent generated turn's speaker; otherwise (no generated
turn yet) participant A. -/
theorem next_turn_speaker_precedence (s : Symposium)
    (hab : s.persona_a.name ≠ s.persona_b.name) :
    (∀ t, s.history.getLast? = some t → t.type = some ("interjection") →
      ((t.target = some ("a") → (resolve_speaker s).1 = s.persona_a) ∧
       (t.target = some ("b") → (resolve_speaker s).1 = s.persona_b)))
    ∧ (last_is_targeted s = false → ∀ g, last_generated s.history = some g →
        ((g.speaker = s.persona_a.name → (resolve_speaker s).1 = s.persona_b) ∧
         (g.speaker = s.persona_b.name → (resolve_speaker s).1 = s.persona_a)))
    ∧ (last_is_targeted s = false → last_generated s.history = Option.none →
        (resolve_speaker s).1 = s.persona_a) := by
  refine ⟨?_, ?_, ?_⟩
  · intro t hlast htype
    constructor
    · intro htgt
      simp only [resolve_speaker, hlast]
      rw [if_pos htype, if_pos htgt]
    · intro htgt
      simp only [resolve_speaker, hlast]
      rw [if_pos htype, if_neg (by simp [htgt]), if_pos htgt]
  · intro hlt g hg
    rw [resolve_speaker_not_forced s hlt]
    unfold last_generated at hg
    rw [last_philosopher_rev_of_find_some s.persona_a.name _ g hg]
    constructor
    · intro hsp
      simp [hsp]
    · intro hsp
      have hne : ¬ g.speaker = s.persona_a.name := by
        rw [hsp]
        exact fun hcontra => hab hcontra.symm
      simp [hne]
  · intro hlt hg
    rw [resolve_speaker_not_forced s hlt]
    unfold last_generated at hg
    rw [last_philosopher_rev_of_find_none s.persona_a.name _ hg]
    simp

/-- Witness for C3 at a debate whose most recent entry targets b. -/
theorem next_turn_speaker_precedence_witness :
    (resolve_speaker sampleSymTargeted).1 = samplePersonaB :=
  ((next_turn_speaker_precedence sampleSymTargeted (by decide)).1 sampleInterjB
    (by decide) (by decide)).2 (by decide)

/-- C4: an interjection's target influences at most the single next
generated turn: whatever interjections (targeted or not) the history holds,
once a generated turn is the most recent entry the next speaker is fixed by
alternation on that turn alone; and an interjection whose target is invalid
or absent falls back to normal alternation over the prior history (a newer
targeted interjection is covered by the override case of the speaker
precedence result). -/
theorem interjection_target_single_use (s : Symposium) :
    (∀ g : Turn, g.type ≠ some ("interjection") →
      (resolve_speaker { s with history := s.history ++ [g] }).1 =
        (if g.speaker = s.persona_a.name then s.persona_b else s.persona_a))
    ∧ (∀ t, s.history.getLast? = some t → t.type = some ("interjection") →
        t.target ≠ some ("a") → t.target ≠ some ("b") →
        (resolve_speaker s).1 = spec_alternation_speaker s) := by
  constructor
  · intro g hg
    have hlt : last_is_targeted { s with history := s.history ++ [g] } = false := by
      unfold last_is_targeted
      rw [List.getLast?_concat]
      simp [hg]
    rw [resolve_speaker_not_forced _ hlt]
    have hrev : (s.history ++ [g]).reverse = g :: s.history.reverse := by
      simp
    have hscan : last_philosopher_rev s.persona_a.name (s.history ++ [g]).reverse =
        if g.speaker = s.persona_a.name then 0 else 1 := by
      rw [hrev]
      simp only [last_philosopher_rev]
      rw [if_pos hg]
    rw [hscan]
    by_cases hsp : g.speaker = s.persona_a.name
    · simp [hsp]
    · simp [hsp]
  · intro t hlast htype hta htb
    have hlt : last_is_targeted s = false := by
      unfold last_is_targeted
      rw [hlast]
      simp [htype, hta, htb]
    rw [resolve_speaker_not_forced s hlt]
    unfold spec_alternation_speaker
    cases hg : last_generated s.history with
    | none =>
      unfold last_generated at hg
      rw [last_philosopher_rev_of_find_none s.persona_a.name _ hg]
      simp
    | some g =>
      unfold last_generated at hg
      rw [last_philosopher_rev_of_find_some s.persona_a.name _ g hg]
      by_cases hsp : g.speaker = s.persona_a.name
      · simp [hsp]
      · simp [hsp]

/-- Witness for C4: after a generated turn follows the targeted
interjection, alternation (not the earlier target) picks the speaker. -/
theorem interjection_target_single_use_witness :
    (resolve_speaker
      { sampleSymTargeted with history := sampleSymTargeted.history ++ [sampleTurnA] }).1 =
      samplePersonaB := by
  have h := (interjection_target_single_use sampleSymTargeted).1 sampleTurnA (by decide)
  simpa using h

/-- Counterexample to C8 as stated: with `deepMode=false` but the
WHETSTONE_VERBOSE environment variable set to 1 (the `env_verbose` input),
the assembled prompt does not contain the concise instruction and does
contain the thorough one. -/
theorem prompt_env_verbose_counterexample :
    pyIn concise_instruction
      (construct_prompt samplePersonaA "" false false true [] ("why")) = false
    ∧ pyIn thorough_instruction
      (construct_prompt samplePersonaA "" false false true [] ("why")) = true := by
  constructor
  · decide
  · decide


/-- C8 amended: the assembled prompt contains the thorough-response
instruction (as an appended segment, hence as a substring) and not the
concise one exactly when deep mode or the WHETSTONE_VERBOSE environment
override is on; with both off, it contains the concise instruction and not
the thorough one. Absence is stated at segment level, for inputs that do not
themselves spell out the other instruction. -/
theorem prompt_instruction_by_mode (persona : Persona) (custom_preamble query : String)
    (deep_mode clarity_mode env_verbose : Bool) (snips : List ScoredDoc) :
    ((deep_mode || env_verbose) = true →
      thorough_instruction ∈
        construct_prompt_parts persona custom_preamble deep_mode clarity_mode env_verbose
          snips query
      ∧ (∃ u v, construct_prompt persona custom_preamble deep_mode clarity_mode env_verbose
            snips query = u ++ thorough_instruction ++ v)
      ∧ (persona_block persona custom_preamble ≠ concise_instruction →
          query ≠ concise_instruction →
          context_str snips ≠ concise_instruction →
          concise_instruction ∉
            construct_prompt_parts persona custom_preamble deep_mode clarity_mode env_verbose
              snips query))
    ∧ ((deep_mode || env_verbose) = false →
      concise_instruction ∈
        construct_prompt_parts persona custom_preamble deep_mode clarity_mode env_verbose
          snips query
      ∧ (∃ u v, construct_prompt persona custom_preamble deep_mode clarity_mode env_verbose
            snips query = u ++ concise_instruction ++ v)
      ∧ (persona_block persona custom_preamble ≠ thorough_instruction →
          query ≠ thorough_instruction →
          context_str snips ≠ thorough_instruction →
          thorough_instruction ∉
            construct_prompt_parts persona custom_preamble deep_mode clarity_mode env_verbose
              snips query)) := by
  constructor
  · intro hv
    have hli : length_instruction (deep_mode || env_verbose) = thorough_instruction := by
      rw [hv]
      rfl
    refine ⟨?_, ?_, ?_⟩
    · by_cases hemp : snips.isEmpty
      · simp [construct_prompt_parts, hemp, hli]
      · simp [construct_prompt_parts, hemp, hli]
    · by_cases hemp : snips.isEmpty
      · refine ⟨persona_block persona custom_preamble ++
          "\n\nCarefully consider the user\x27s question and respond in character.",
          (if clarity_mode then clarity_mode_instruction else "") ++
            "\nUser\x27s Question: " ++ query ++ "\nAI Philosopher:", ?_⟩
        simp [construct_prompt, hemp, hli, String.append_assoc]
      · refine ⟨persona_block persona custom_preamble ++
          "\n\nHere is some context from your library that may be relevant to the user\x27s query:\n---\n" ++
            context_str snips ++
            "\n---\n\nNow, carefully consider the user\x27s question and respond in character, grounding your response in the provided texts.",
          (if clarity_mode then clarity_mode_instruction else "") ++
            "\nUser\x27s Question: " ++ query ++ "\nAI Philosopher:", ?_⟩
        simp [construct_prompt, hemp, hli, String.append_assoc]
    · intro h1 h2 h3
      by_cases hemp : snips.isEmpty
      · by_cases hcl : clarity_mode
        · simp [construct_prompt_parts, hemp, hli, hcl]
          repeat' apply And.intro
          all_goals first
            | decide
            | exact fun hcontra => h1 hcontra.symm
            | exact fun hcontra => h2 hcontra.symm
            | exact fun hcontra => h3 hcontra.symm
        · simp [construct_prompt_parts, hemp, hli, hcl]
          repeat' apply And.intro
          all_goals first
            | decide
            | exact fun hcontra => h1 hcontra.symm
            | exact fun hcontra => h2 hcontra.symm
            | exact fun hcontra => h3 hcontra.symm
      · by_cases hcl : clarity_mode
        · simp [construct_prompt_parts, hemp, hli, hcl]
          repeat' apply And.intro
          all_goals first
            | decide
            | exact fun hcontra => h1 hcontra.symm
            | exact fun hcontra => h2 hcontra.symm
            | exact fun hcontra => h3 hcontra.symm
        · simp [construct_prompt_parts, hemp, hli, hcl]
          repeat' apply And.intro
          all_goals first
            | decide
            | exact fun hcontra => h1 hcontra.symm
            | exact fun hcontra => h2 hcontra.symm
            | exact fun hcontra => h3 hcontra.symm
  · intro hv
    have hli : length_instruction (deep_mode || env_verbose) = concise_instruction := by
      rw [hv]
      rfl
    refine ⟨?_, ?_, ?_⟩
    · by_cases hemp : snips.isEmpty
      · simp [construct_prompt_parts, hemp, hli]
      · simp [construct_prompt_parts, hemp, hli]
    · by_cases hemp : snips.isEmpty
      · refine ⟨persona_block persona custom_preamble ++
          "\n\nCarefully consider the user\x27s question and respond in character.",
          (if clarity_mode then clarity_mode_instruction else "") ++
            "\nUser\x27s Question: " ++ query ++ "\nAI Philosopher:", ?_⟩
        simp [construct_prompt, hemp, hli, String.append_assoc]
      · refine ⟨persona_block persona custom_preamble ++
          "\n\nHere is some context from your library that may be relevant to the user\x27s query:\n---\n" ++
            context_str snips ++
            "\n---\n\nNow, carefully consider the user\x27s question and respond in character, grounding your response in the provided texts.",
          (if clarity_mode then clarity_mode_instruction else "") ++
            "\nUser\x27s Question: " ++ query ++ "\nAI Philosopher:", ?_⟩
        simp [construct_prompt, hemp, hli, String.append_assoc]
    · intro h1 h2 h3
      by_cases hemp : snips.isEmpty
      · by_cases hcl : clarity_mode
        · simp [construct_prompt_parts, hemp, hli, hcl]
          repeat' apply And.intro
          all_goals first
            | decide
            | exact fun hcontra => h1 hcontra.symm
            | exact fun hcontra => h2 hcontra.symm
            | exact fun hcontra => h3 hcontra.symm
        · simp [construct_prompt_parts, hemp, hli, hcl]
          repeat' apply And.intro
          all_goals first
            | decide
            | exact fun hcontra => h1 hcontra.symm
            | exact fun hcontra => h2 hcontra.symm
            | exact fun hcontra => h3 hcontra.symm
      · by_cases hcl : clarity_mode
        · simp [construct_prompt_parts, hemp, hli, hcl]
          repeat' apply And.intro
          all_goals first
            | decide
            | exact fun hcontra => h1 hcontra.symm
            | exact fun hcontra => h2 hcontra.symm
            | exact fun hcontra => h3 hcontra.symm
        · simp [construct_prompt_parts, hemp, hli, hcl]
          repeat' apply And.intro
          all_goals first
            | decide
            | exact fun hcontra => h1 hcontra.symm
            | exact fun hcontra => h2 hcontra.symm
            | exact fun hcontra => h3 hcontra.symm

/-- Witness for the amended C8: deep mode on, concrete inputs, the thorough
instruction is one of the assembled segments. -/
theorem prompt_instruction_by_mode_witness :
    thorough_instruction ∈
      construct_prompt_parts samplePersonaA "" true false false [] ("why") :=
  ((prompt_instruction_by_mode samplePersonaA "" "why" true false false []).1 rfl).1

/-- Helper: membership through `insertDesc`. -/
theorem mem_insertDesc (key : α → Nat) (a x : α) (l : List α) :
    x ∈ insertDesc key a l ↔ x = a ∨ x ∈ l := by
  induction l with
  | nil => simp [insertDesc]
  | cons y ys ih =>
    by_cases h : key y ≤ key a
    · simp [insertDesc, h]
    · simp only [insertDesc, h, if_false, List.mem_cons, ih]
      tauto

/-- Helper: `sortDesc` permutes membership. -/
theorem mem_sortDesc (key : α → Nat) (x : α) (l : List α) :
    x ∈ sortDesc key l ↔ x ∈ l := by
  induction l with
  | nil => simp [sortDesc]
  | cons y ys ih => simp [sortDesc, mem_insertDesc, ih]

/-- Helper: `insertDesc` commutes with a key-preserving map. -/
theorem map_insertDesc (f : α → β) (ka : α → Nat) (kb : β → Nat)
    (hk : ∀ a, kb (f a) = ka a) (x : α) (l : List α) :
    (insertDesc ka x l).map f = insertDesc kb (f x) (l.map f) := by
  induction l with
  | nil => rfl
  | cons y ys ih =>
    by_cases h : ka y ≤ ka x
    · simp [insertDesc, h, hk]
    · simp [insertDesc, h, hk, ih]

/-- Helper: `sortDesc` commutes with a key-preserving map. -/
theorem map_sortDesc (f : α → β) (ka : α → Nat) (kb : β → Nat)
    (hk : ∀ a, kb (f a) = ka a) (l : List α) :
    (sortDesc ka l).map f = sortDesc kb (l.map f) := by
  induction l with
  | nil => rfl
  | cons y ys ih => simp [sortDesc, map_insertDesc f ka kb hk, ih]

/-- Helper: stripping the index annotation of the indexed scoring pipeline
recovers the plain pipeline. -/
theorem enumFrom_filterMap_map_snd (f : α → Option β) (n : Nat) (l : List α) :
    ((List.enumFrom n l).filterMap (fun p => (f p.2).map (fun r => (p.1, r)))).map Prod.snd
      = l.filterMap f := by
  induction l generalizing n with
  | nil => rfl
  | cons x xs ih =>
    simp only [List.enumFrom, List.filterMap_cons]
    cases hfx : f x with
    | none => simpa using ih (n + 1)
    | some r => simpa using ih (n + 1)

/-- Helper: indices produced by the indexed pipeline are at least the
starting index. -/
theorem mem_filterMap_enumFrom_le (f : α → Option β) (n : Nat) (l : List α)
    (y : Nat × β)
    (h : y ∈ (List.enumFrom n l).filterMap (fun p => (f p.2).map (fun r => (p.1, r)))) :
    n ≤ y.1 := by
  induction l generalizing n with
  | nil => simp at h
  | cons x xs ih =>
    simp only [List.enumFrom, List.filterMap_cons] at h
    cases hfx : f x with
    | none =>
      rw [hfx] at h
      simp only [Option.map_none'] at h
      exact Nat.le_of_succ_le (ih (n + 1) h)
    | some r =>
      rw [hfx] at h
      simp only [Option.map_some'] at h
      rcases List.mem_cons.mp h with h1 | h2
      · rw [h1]
      · exact Nat.le_of_succ_le (ih (n + 1) h2)

/-- Helper: the indexed pipeline yields strictly increasing indices. -/
theorem pairwise_idx_filterMap_enumFrom (f : α → Option β) (n : Nat) (l : List α) :
    ((List.enumFrom n l).filterMap (fun p => (f p.2).map (fun r => (p.1, r)))).Pairwise
      (fun x y => x.1 < y.1) := by
  induction l generalizing n with
  | nil => simp
  | cons x xs ih =>
    simp only [List.enumFrom, List.filterMap_cons]
    cases hfx : f x with
    | none => simpa using ih (n + 1)
    | some r =>
      simp only [Option.map_some']
      refine List.pairwise_cons.mpr ⟨?_, ih (n + 1)⟩
      intro y hy
      exact Nat.lt_of_succ_le (mem_filterMap_enumFrom_le f (n + 1) xs y hy)

/-- Helper: inserting an element whose index is below every index of a list
that is sorted by descending key with index-increasing ties preserves that
ordering. -/
theorem insertDesc_pairwise (key idx : α → Nat) (x : α) (l : List α)
    (hl : l.Pairwise (fun a b => key b < key a ∨ (key a = key b ∧ idx a < idx b)))
    (hx : ∀ y ∈ l, idx x < idx y) :
    (insertDesc key x l).Pairwise
      (fun a b => key b < key a ∨ (key a = key b ∧ idx a < idx b)) := by
  induction l with
  | nil => simp [insertDesc]
  | cons y ys ih =>
    rcases List.pairwise_cons.mp hl with ⟨hy, hys⟩
    by_cases h : key y ≤ key x
    · simp only [insertDesc, h, if_true]
      refine List.pairwise_cons.mpr ⟨?_, hl⟩
      intro z hz
      rcases List.mem_cons.mp hz with hz1 | hz2
      · subst hz1
        rcases Nat.lt_or_ge (key z) (key x) with h2 | h2
        · exact Or.inl h2
        · exact Or.inr ⟨by omega, hx z (List.mem_cons_self z ys)⟩
      · rcases hy z hz2 with hlt | ⟨heq, hidx⟩
        · exact Or.inl (Nat.lt_of_lt_of_le hlt h)
        · rcases Nat.lt_or_ge (key z) (key x) with h2 | h2
          · exact Or.inl h2
          · exact Or.inr ⟨by omega, hx z (List.mem_cons_of_mem y hz2)⟩
    · simp only [insertDesc, h, if_false]
      refine List.pairwise_cons.mpr
        ⟨?_, ih hys (fun z hz => hx z (List.mem_cons_of_mem y hz))⟩
      intro z hz
      rcases (mem_insertDesc key x z ys).mp hz with hz1 | hz2
      · subst hz1
        exact Or.inl (Nat.lt_of_not_le h)
      · exact hy z hz2

/-- Helper: a list with strictly increasing indices is sorted by `sortDesc`
into descending key order with ties in index (original) order. -/
theorem sortDesc_pairwise (key idx : α → Nat) (l : List α)
    (h : l.Pairwise (fun a b => idx a < idx b)) :
    (sortDesc key l).Pairwise
      (fun a b => key b < key a ∨ (key a = key b ∧ idx a < idx b)) := by
  induction l with
  | nil => simp [sortDesc]
  | cons x xs ih =>
    rcases List.pairwise_cons.mp h with ⟨hx, hxs⟩
    simp only [sortDesc]
    exact insertDesc_pairwise key idx x (sortDesc key xs) (ih hxs)
      (fun y hy => hx y ((mem_sortDesc key y xs).mp hy))

/-- Helper: a kept scored document has a positive score. -/
theorem scored_one_score_pos (qw : List String) (d : Document) (r : ScoredDoc)
    (h : scored_one qw d = some r) : 0 < r.score := by
  simp only [scored_one] at h
  by_cases hc : 0 < doc_score qw (pyLower d.content)
  · rw [if_pos hc] at h
    cases h
    exact hc
  · rw [if_neg hc] at h
    exact absurd h (by simp)

/-- Helper: the indexed scoring pipeline projects to the plain one. -/
theorem scored_docs_idx_map_snd (qw : List String) (docs : List Document) :
    (scored_docs_idx qw docs).map Prod.snd = scored_docs qw docs := by
  unfold scored_docs_idx scored_docs
  exact enumFrom_filterMap_map_snd (scored_one qw) 0 docs

/-- C7: `search` returns at most `limit` results (the session default being
3), every result has a positive score, and the result list equals the
index-annotated pipeline's output (indices being original document
positions), which is ordered by strictly descending score or, on equal
scores, by strictly increasing original position - descending stable order. -/
theorem search_limit_sorted_stable (docs : List Document) (rag_limit : Nat)
    (query : String) (library_filter : List String) :
    (simple_keyword_search docs rag_limit query library_filter).length ≤ rag_limit
    ∧ (∀ r ∈ simple_keyword_search docs rag_limit query library_filter, 0 < r.score)
    ∧ simple_keyword_search docs rag_limit query library_filter =
        (search_idx docs rag_limit query library_filter).map Prod.snd
    ∧ (search_idx docs rag_limit query library_filter).Pairwise
        (fun x y => y.2.score < x.2.score ∨ (x.2.score = y.2.score ∧ x.1 < y.1)) := by
  refine ⟨?_, ?_, ?_, ?_⟩
  · by_cases hq : (query_words query).isEmpty
    · simp [simple_keyword_search, hq]
    · simp only [simple_keyword_search, hq, Bool.false_eq_true, if_false]
      simp [List.length_take]
  · intro r hr
    by_cases hq : (query_words query).isEmpty
    · simp [simple_keyword_search, hq] at hr
    · simp only [simple_keyword_search, hq, Bool.false_eq_true, if_false] at hr
      have hr2 : r ∈ sortDesc (fun s => s.score)
          (scored_docs (query_words query) (filtered_docs docs library_filter)) :=
        List.mem_of_mem_take hr
      have hr3 : r ∈ scored_docs (query_words query) (filtered_docs docs library_filter) :=
        (mem_sortDesc _ r _).mp hr2
      rcases List.mem_filterMap.mp hr3 with ⟨d, _, hd⟩
      exact scored_one_score_pos (query_words query) d r hd
  · by_cases hq : (query_words query).isEmpty
    · simp [simple_keyword_search, search_idx, hq]
    · simp only [simple_keyword_search, search_idx, hq, Bool.false_eq_true, if_false]
      rw [List.map_take]
      rw [map_sortDesc (Prod.snd : Nat × ScoredDoc → ScoredDoc)
        (fun (p : Nat × ScoredDoc) => p.2.score) (fun s => s.score) (fun a => rfl)]
      rw [scored_docs_idx_map_snd]
  · by_cases hq : (query_words query).isEmpty
    · simp [search_idx, hq]
    · simp only [search_idx, hq, Bool.false_eq_true, if_false]
      refine List.Pairwise.sublist (List.take_sublist _ _) ?_
      exact sortDesc_pairwise (fun (p : Nat × ScoredDoc) => p.2.score)
        (fun (p : Nat × ScoredDoc) => p.1) _
        (pairwise_idx_filterMap_enumFrom (scored_one (query_words query)) 0
          (filtered_docs docs library_filter))

/-- Witness for C7: the single result for a concrete query has a positive
score. -/
theorem search_limit_sorted_stable_witness :
    0 < (⟨1, "this is okay content", "doc.txt"⟩ : ScoredDoc).score :=
  (search_limit_sorted_stable [sampleDocOkay] 3 "okay" []).2.1
    ⟨1, "this is okay content", "doc.txt"⟩ (by decide)
